import Mathlib

/-!
# Verification of the resource-pooling and sandbox core of `claude_agent_toolkit`

Shallow embedding of:
* `src/claude_agent_toolkit/agent/dependency_pool.py`
  (`DependencyPool.acquire` / `release` / `cleanup_expired`,
  `SharedDependencyManager.register_agent`),
* `src/claude_agent_toolkit/system/sandbox.py` (`SandboxManager.run`),
* `src/claude_agent_toolkit/system/observability.py` (`EventBus.publish` / `recent`).

Modelling conventions:
* Python `dict`s are association lists with unique keys; `d[k] = v` replaces in
  place when the key is present and appends otherwise, `del d[k]` removes the key
  and raises `KeyError` when it is absent (we surface that as an explicit error
  constructor where the source can hit it).
* The pool's `asyncio.Queue` is a FIFO list: `get` pops the head, `put` appends.
* Instance handles (opaque Python objects) are `Nat`s; `create_instance` returns
  a fresh handle drawn from a counter.  `validate_instance` is the abstract
  method of the concrete pool, passed in as a boolean oracle.
* Wall-clock instants (`datetime.now()` / `time.time()`) are supplied by the
  caller; pool timestamps are `Nat` seconds, sandbox latencies are `Rat` ms.
* Every pool method runs entirely inside `async with self._lock`, so each one is
  embedded as a single atomic transition on the pool state.  In particular the
  `await asyncio.wait_for(self._available.get(), ...)` step of `acquire` happens
  with the lock held: no other task can touch the queue while it waits, so the
  `get` returns immediately when the queue is non-empty and otherwise times out.
  That is exactly how the wait step is embedded.
-/

namespace AgentToolkit

/-- Lookup in a unique-key association list (Python `d[k]` / `k in d`). -/
def alistLookup {α β : Type} [DecidableEq α] (l : List (α × β)) (k : α) :
    Option β :=
  match l with
  | [] => none
  | (k', v) :: rest => if k' = k then some v else alistLookup rest k

/-- Python `d[k] = v`: replace in place if present, else append. -/
def alistInsert {α β : Type} [DecidableEq α] (l : List (α × β)) (k : α) (v : β) :
    List (α × β) :=
  match l with
  | [] => [(k, v)]
  | (k', v') :: rest =>
      if k' = k then (k, v) :: rest else (k', v') :: alistInsert rest k v

/-- Python `del d[k]` on a unique-key dict (the key is removed entirely). -/
def alistErase {α β : Type} [DecidableEq α] (l : List (α × β)) (k : α) :
    List (α × β) :=
  match l with
  | [] => []
  | (k', v') :: rest =>
      if k' = k then alistErase rest k else (k', v') :: alistErase rest k

/-- Python `d.values()`. -/
def alistValues {α β : Type} (l : List (α × β)) : List β := l.map (·.2)

/-- `DependencyInstance` (dependency_pool.py): per-instance metadata record. -/
structure DependencyInstance where
  agent_id : String
  acquired_at : Nat
  last_used : Nat
  use_count : Nat
  deriving DecidableEq, Repr

/-- `DependencyInstance.touch`: update `last_used`, bump `use_count`. -/
def DependencyInstance.touch (d : DependencyInstance) (now : Nat) :
    DependencyInstance :=
  { d with last_used := now, use_count := d.use_count + 1 }

/-- State of `DependencyPool` (dependency_pool.py):
`_available` (asyncio.Queue, FIFO), `_in_use` (agent_id → instance),
`_instance_refs` (instance → metadata), `_creation_times` (instance →
creation timestamp).  `next_id` models the allocator of fresh Python objects:
`create_instance` returns handle `next_id` and bumps the counter. -/
structure DependencyPool where
  dependency_type : String
  max_instances : Nat
  available : List Nat
  in_use : List (String × Nat)
  instance_refs : List (Nat × DependencyInstance)
  creation_times : List (Nat × Nat)
  next_id : Nat
  deriving DecidableEq, Repr

/-- `DependencyPool.__init__`. -/
def DependencyPool.init (dependency_type : String) (max_instances : Nat) :
    DependencyPool :=
  { dependency_type := dependency_type
    max_instances := max_instances
    available := []
    in_use := []
    instance_refs := []
    creation_times := []
    next_id := 0 }

/-- Outcome of `DependencyPool.acquire`: the returned instance, the raised
`TimeoutError`, or a raised `KeyError` (possible when a queued handle has no
metadata record, e.g. `self._instance_refs[instance]` on a missing key). -/
inductive AcquireResult where
  | acquired (inst : Nat)
  | timedOut
  | keyError
  deriving DecidableEq, Repr

/-- The part of `acquire` after the first idle-queue attempt: the
`len(self._in_use) < self.max_instances` creation step, then the
`asyncio.wait_for(self._available.get(), ...)` wait step.  With the pool lock
held throughout `acquire`, the waited `get` can only ever return an instance
that is already in the queue; otherwise the wait ends in `TimeoutError`. -/
def DependencyPool.acquireAfterIdle (p : DependencyPool) (validate : Nat → Bool)
    (agent_id : String) (now : Nat) : AcquireResult × DependencyPool :=
  if p.in_use.length < p.max_instances then
    -- instance = await self.create_instance(); register metadata; assign
    let inst := p.next_id
    (.acquired inst,
      { p with
          next_id := p.next_id + 1
          in_use := alistInsert p.in_use agent_id inst
          instance_refs := alistInsert p.instance_refs inst
            { agent_id := agent_id, acquired_at := now, last_used := now
              use_count := 0 }
          creation_times := alistInsert p.creation_times inst now })
  else
    -- await asyncio.wait_for(self._available.get(), timeout=...)
    match p.available with
    | [] => (.timedOut, p)
    | inst :: rest =>
        if validate inst then
          match alistLookup p.instance_refs inst with
          | some ref =>
              (.acquired inst,
                { p with
                    available := rest
                    in_use := alistInsert p.in_use agent_id inst
                    instance_refs :=
                      alistInsert p.instance_refs inst (ref.touch now) })
          | none =>
              -- self._instance_refs[instance] raises KeyError
              (.keyError,
                { p with
                    available := rest
                    in_use := alistInsert p.in_use agent_id inst })
        else
          -- destroy_instance; del refs; del creation_times; then raise Timeout
          match alistLookup p.instance_refs inst with
          | none => (.keyError, { p with available := rest })
          | some _ =>
              match alistLookup p.creation_times inst with
              | none =>
                  (.keyError,
                    { p with
                        available := rest
                        instance_refs := alistErase p.instance_refs inst })
              | some _ =>
                  (.timedOut,
                    { p with
                        available := rest
                        instance_refs := alistErase p.instance_refs inst
                        creation_times := alistErase p.creation_times inst })

/-- `DependencyPool.acquire(agent_id, timeout)` as one atomic transition (the
whole body runs under `self._lock`).  Step 1: if the idle queue is non-empty,
pop one instance; if it validates, move it to `_in_use[agent_id]`, touch its
metadata and return it; if not, destroy it, drop its metadata and fall through
(the source does **not** loop back to the queue) to the creation / wait steps
of `acquireAfterIdle`. -/
def DependencyPool.acquire (p : DependencyPool) (validate : Nat → Bool)
    (agent_id : String) (now : Nat) : AcquireResult × DependencyPool :=
  match p.available with
  | [] => p.acquireAfterIdle validate agent_id now
  | inst :: rest =>
      if validate inst then
        match alistLookup p.instance_refs inst with
        | some ref =>
            (.acquired inst,
              { p with
                  available := rest
                  in_use := alistInsert p.in_use agent_id inst
                  instance_refs :=
                    alistInsert p.instance_refs inst (ref.touch now) })
        | none =>
            -- self._in_use[agent_id] = instance already happened, then
            -- self._instance_refs[instance] raises KeyError
            (.keyError,
              { p with
                  available := rest
                  in_use := alistInsert p.in_use agent_id inst })
      else
        match alistLookup p.instance_refs inst with
        | none => (.keyError, { p with available := rest })
        | some _ =>
            match alistLookup p.creation_times inst with
            | none =>
                (.keyError,
                  { p with
                      available := rest
                      instance_refs := alistErase p.instance_refs inst })
            | some _ =>
                DependencyPool.acquireAfterIdle
                  { p with
                      available := rest
                      instance_refs := alistErase p.instance_refs inst
                      creation_times := alistErase p.creation_times inst }
                  validate agent_id now

/-- Outcome of `release` / `cleanup_expired`: normal return or raised
`KeyError`. -/
inductive ReleaseResult where
  | ok
  | keyError
  deriving DecidableEq, Repr

/-- `DependencyPool.release(agent_id)`: if the agent holds an instance, remove
it from `_in_use`; if it still validates, put it back on the idle queue,
otherwise destroy it and drop its metadata.  An agent with no held instance is
a silent no-op. -/
def DependencyPool.release (p : DependencyPool) (validate : Nat → Bool)
    (agent_id : String) : ReleaseResult × DependencyPool :=
  match alistLookup p.in_use agent_id with
  | none => (.ok, p)
  | some inst =>
      -- del self._in_use[agent_id] happens first in every branch below
      if validate inst then
        (.ok,
          { p with
              in_use := alistErase p.in_use agent_id
              available := p.available ++ [inst] })
      else
        match alistLookup p.instance_refs inst with
        | none => (.keyError, { p with in_use := alistErase p.in_use agent_id })
        | some _ =>
            match alistLookup p.creation_times inst with
            | none =>
                (.keyError,
                  { p with
                      in_use := alistErase p.in_use agent_id
                      instance_refs := alistErase p.instance_refs inst })
            | some _ =>
                (.ok,
                  { p with
                      in_use := alistErase p.in_use agent_id
                      instance_refs := alistErase p.instance_refs inst
                      creation_times := alistErase p.creation_times inst })

/-- The removal loop of `cleanup_expired`: for each expired instance, skip it
when it is one of `self._in_use.values()`, otherwise destroy it and delete its
`_instance_refs` / `_creation_times` entries (the source never removes it from
`_available`). -/
def DependencyPool.cleanupRemove (p : DependencyPool) (count : Nat) :
    List Nat → (ReleaseResult × Nat) × DependencyPool
  | [] => ((.ok, count), p)
  | inst :: rest =>
      if (alistValues p.in_use).contains inst then
        p.cleanupRemove count rest
      else
        match alistLookup p.instance_refs inst with
        | none => ((.keyError, count), p)
        | some _ =>
            -- del self._instance_refs[instance] succeeds first, then
            -- del self._creation_times[instance] may raise
            match alistLookup p.creation_times inst with
            | none =>
                ((.keyError, count),
                  { p with instance_refs := alistErase p.instance_refs inst })
            | some _ =>
                DependencyPool.cleanupRemove
                  { p with
                      instance_refs := alistErase p.instance_refs inst
                      creation_times := alistErase p.creation_times inst }
                  (count + 1) rest

/-- `DependencyPool.cleanup_expired(max_age_seconds)`: collect every instance
whose creation timestamp is older than `max_age_seconds`, then run the removal
loop.  Returns the number of destroyed instances. -/
def DependencyPool.cleanup_expired (p : DependencyPool) (now max_age : Nat) :
    (ReleaseResult × Nat) × DependencyPool :=
  let toRemove :=
    (p.creation_times.filter (fun e => max_age < now - e.2)).map (·.1)
  p.cleanupRemove 0 toRemove

/-- One lock-protected operation on a pool.  `validate` is the concrete pool's
`validate_instance` probe at the moment of the call (instances can go stale
between operations, so each operation carries its own oracle). -/
inductive PoolOp where
  | acquireOp (validate : Nat → Bool) (agent_id : String) (now : Nat)
  | releaseOp (validate : Nat → Bool) (agent_id : String)
  | cleanupOp (now max_age : Nat)

/-- Apply one operation, discarding its result (return value or exception). -/
def applyOp (p : DependencyPool) : PoolOp → DependencyPool
  | .acquireOp validate agent_id now => (p.acquire validate agent_id now).2
  | .releaseOp validate agent_id => (p.release validate agent_id).2
  | .cleanupOp now max_age => (p.cleanup_expired now max_age).2

/-- Run a sequence of pool operations. -/
def runOps (p : DependencyPool) (ops : List PoolOp) : DependencyPool :=
  ops.foldl applyOp p

/-- State of `SharedDependencyManager` relevant to agent registration:
`_pools` (name → pool) and `_agent_dependencies` (agent_id → set of names).
Python `set(...)` is modelled by `List.dedup` of the given list (membership is
all the source ever uses). -/
structure SharedDependencyManager where
  pools : List (String × DependencyPool)
  agent_dependencies : List (String × List String)
  deriving DecidableEq, Repr

/-- `SharedDependencyManager.register_agent(agent_id, dependency_types)`:
first a loop checks every requested name against `_pools` and raises
`ValueError` at the first unknown one; only after all checks pass is
`_agent_dependencies[agent_id]` assigned wholesale. -/
def SharedDependencyManager.register_agent (m : SharedDependencyManager)
    (agent_id : String) (dependency_types : List String) :
    Except String SharedDependencyManager :=
  match dependency_types.find? (fun d => (alistLookup m.pools d).isNone) with
  | some d => .error ("Unknown dependency type: " ++ d)
  | none =>
      .ok { m with
              agent_dependencies :=
                alistInsert m.agent_dependencies agent_id
                  dependency_types.dedup }

/-- `EventBus` (observability.py): fixed-capacity buffer of published events.
Subscriber dispatch happens after the buffer update, outside the lock, and
never touches the buffer; it is not modelled here. -/
structure EventBus (E : Type) where
  buffer_size : Nat
  buffer : List E
  deriving Repr

/-- `EventBus.__init__(buffer_size)`. -/
def EventBus.init (E : Type) (buffer_size : Nat) : EventBus E :=
  { buffer_size := buffer_size, buffer := [] }

/-- `EventBus.publish(event)` buffer update: when `len(buffer) >= buffer_size`,
`buffer.pop(0)` drops the oldest event — and raises `IndexError` (modelled as
`none`) when the buffer is empty, which happens exactly when
`buffer_size = 0`; then the event is appended. -/
def EventBus.publish {E : Type} (b : EventBus E) (e : E) : Option (EventBus E) :=
  if b.buffer_size ≤ b.buffer.length then
    match b.buffer with
    | [] => none
    | _ :: rest => some { b with buffer := rest ++ [e] }
  else
    some { b with buffer := b.buffer ++ [e] }

/-- Publish a sequence of events in order. -/
def EventBus.publishAll {E : Type} (b : EventBus E) :
    List E → Option (EventBus E)
  | [] => some b
  | e :: es => match b.publish e with
      | none => none
      | some b1 => b1.publishAll es

/-- Python `lst[-limit:]` for a non-negative `limit`: `-0 == 0`, so `limit = 0`
slices from index `0` (the whole list); for `limit > 0` a negative start index
beyond the front clamps to `0`, which `Nat` subtraction models exactly. -/
def pyTailSlice {E : Type} (l : List E) (limit : Nat) : List E :=
  if limit = 0 then l else l.drop (l.length - limit)

/-- `EventBus.recent(limit)`: a snapshot `list(self._buffer[-limit:])`. -/
def EventBus.recent {E : Type} (b : EventBus E) (limit : Nat) : List E :=
  pyTailSlice b.buffer limit

/-- `SandboxStrategyConfig` (config.py); `memory_limit_mb : Optional[int]`. -/
structure SandboxStrategyConfig where
  max_concurrency : Int := 8
  hard_cpu_limit_pct : Int := 90
  memory_limit_mb : Option Int := none
  network_policy : Option String := none
  deriving DecidableEq, Repr

/-- `SandboxSession` (sandbox.py). -/
structure SandboxSession where
  agent_id : String
  strategy : String
  created_ts : Rat
  deriving DecidableEq, Repr

/-- `SandboxResult` (sandbox.py). -/
structure SandboxResult where
  success : Bool
  stdout : String
  stderr : String
  latency_ms : Rat
  deriving DecidableEq, Repr

/-- The fields of `SandboxExecutionEvent` (observability.py) that `run`
sets (the free-form `data` payload of diagnostics is not modelled). -/
structure SandboxExecutionEvent where
  event_type : String
  agent_id : String
  sandbox_strategy : String
  phase : String
  command : Option String
  success : Option Bool
  latency_ms : Option Rat
  deriving DecidableEq, Repr

/-- What the OS / `psutil` side of one `run` call did, supplied as an oracle:
either the subprocess machinery completed (`returncode = none` models
`TimeoutExpired`, after which the source kills the process and uses exit code
`-1`), or some exception was raised while spawning or monitoring.  CPU
percentages and memory MB are the maxima the sampling thread observed; they
and the measured latency are rationals (every Python float is one). -/
inductive ExecOutcome where
  | completed (stdout stderr : String) (returncode : Option Int)
      (max_cpu max_memory_mb latency_ms : Rat)
  | raised (msg : String) (latency_ms : Rat)

/-- Python truthiness of `Optional[int]`: `None` and `0` are falsy. -/
def pyTruthyOptInt (o : Option Int) : Bool :=
  match o with
  | none => false
  | some n => n != 0

/-- `SandboxManager.create_session(agent_id, strategy)`: raises `ValueError`
(modelled `none`) for an unknown strategy, else returns a session token. -/
def SandboxManager.create_session
    (strategies : List (String × SandboxStrategyConfig))
    (agent_id strategy : String) (now : Rat) : Option SandboxSession :=
  if (alistLookup strategies strategy).isSome then
    some { agent_id := agent_id, strategy := strategy, created_ts := now }
  else
    none

/-- `SandboxManager.run(session, command)` as a function of the execution
oracle.  Returns the `SandboxResult` together with the events published on the
bus (`start`, then `finish`), or `none` for the `KeyError` of
`self._strategies[session.strategy]` on an unknown strategy (unreachable for
sessions minted by `create_session`).  The whole subprocess/monitoring block is
wrapped in `try/except Exception`, so a raised oracle becomes a
`success=False` result whose `stderr` is `"Execution failed: " + str(e)`, and
a failed `finish` event is still published. -/
def SandboxManager.run (strategies : List (String × SandboxStrategyConfig))
    (session : SandboxSession) (command : String) (outcome : ExecOutcome) :
    Option (SandboxResult × List SandboxExecutionEvent) :=
  match alistLookup strategies session.strategy with
  | none => none
  | some strategy_config =>
      let cpu_limit_pct : Int := strategy_config.hard_cpu_limit_pct
      let memory_limit_mb : Option Int := strategy_config.memory_limit_mb
      let startEvent : SandboxExecutionEvent :=
        { event_type := "sandbox.exec", agent_id := session.agent_id
          sandbox_strategy := session.strategy, phase := "start"
          command := some command, success := none, latency_ms := none }
      match outcome with
      | .completed stdout stderr returncode max_cpu max_memory_mb latency_ms =>
          let exit_code : Int :=
            match returncode with
            | some c => c
            | none => -1
          let resource_exceeded : Bool :=
            decide ((cpu_limit_pct : Rat) < max_cpu) ||
              (pyTruthyOptInt memory_limit_mb &&
                decide (((memory_limit_mb.getD 0 : Int) : Rat) < max_memory_mb))
          let success : Bool := (exit_code == 0) && !resource_exceeded
          let result : SandboxResult :=
            { success := success, stdout := stdout
              stderr := if !success then stderr else ""
              latency_ms := latency_ms }
          some (result,
            [startEvent,
             { event_type := "sandbox.exec", agent_id := session.agent_id
               sandbox_strategy := session.strategy, phase := "finish"
               command := some command, success := some success
               latency_ms := some latency_ms }])
      | .raised msg latency_ms =>
          let result : SandboxResult :=
            { success := false, stdout := ""
              stderr := "Execution failed: " ++ msg
              latency_ms := latency_ms }
          some (result,
            [startEvent,
             { event_type := "sandbox.exec", agent_id := session.agent_id
               sandbox_strategy := session.strategy, phase := "finish"
               command := some command, success := some false
               latency_ms := some latency_ms }])

/-- The success formula exactly as the spec states it (§4.4 step 5), for
comparison with the embedded code:
`success = (exit_code == 0) AND max_cpu ≤ hard_cpu_limit_pct AND
(no memory_limit_mb configured OR max_memory ≤ memory_limit_mb)`. -/
def specSuccessFormula (exit_code : Int) (max_cpu : Rat)
    (hard_cpu_limit_pct : Int) (max_memory_mb : Rat)
    (memory_limit_mb : Option Int) : Bool :=
  (exit_code == 0) && decide (max_cpu ≤ (hard_cpu_limit_pct : Rat)) &&
    (match memory_limit_mb with
     | none => true
     | some l => decide (max_memory_mb ≤ (l : Rat)))

/-! ## Derived notions and concrete states used in the claims -/

/-- The number of handles the pool holds in its two containers is bounded by
the capacity: `|in_use| + |available| ≤ max_instances`. -/
def sumInv (p : DependencyPool) : Prop :=
  p.in_use.length + p.available.length ≤ p.max_instances

/-- The last `n` elements of a list. -/
def takeLastN {α : Type} (n : Nat) (l : List α) : List α :=
  l.drop (l.length - n)

/-- A pool that acquired one instance (handle `0`) for `"agent-a"` at time `0`
and released it back to the idle queue, so `available = [0]` and handle `0`
has metadata and a creation timestamp. -/
def c1Pool : DependencyPool :=
  (((DependencyPool.init "filesystem" 5).acquire (fun _ => true) "agent-a"
        0).2.release (fun _ => true) "agent-a").2

/-- A pool whose idle queue holds a stale handle `0` in front of a live
handle `1`, both with metadata and creation timestamps, and spare capacity. -/
def c4Pool : DependencyPool :=
  { dependency_type := "cursor"
    max_instances := 5
    available := [0, 1]
    in_use := []
    instance_refs :=
      [(0, { agent_id := "agent-x", acquired_at := 0, last_used := 0
             use_count := 0 }),
       (1, { agent_id := "agent-y", acquired_at := 0, last_used := 0
             use_count := 0 })]
    creation_times := [(0, 0), (1, 0)]
    next_id := 2 }

/-- A `validate_instance` oracle under which handle `0` is stale and every
other handle is live. -/
def c4Validate : Nat → Bool := fun inst => inst != 0

/-- A strategy profile whose configured memory limit is `0` MB
(`memory_limit_mb : Optional[int]` admits `0`). -/
def memZeroConfig : SandboxStrategyConfig :=
  { max_concurrency := 8, hard_cpu_limit_pct := 90, memory_limit_mb := some 0
    network_policy := none }

/-- A strategy map with the single profile `memZeroConfig`. -/
def memZeroStrategies : List (String × SandboxStrategyConfig) :=
  [("restricted", memZeroConfig)]

/-- A session bound to the `"restricted"` strategy of `memZeroStrategies`. -/
def memZeroSession : SandboxSession :=
  { agent_id := "agent-a", strategy := "restricted", created_ts := 0 }

/-- The result the sandbox reports for a completed run with exit code `0`,
`max_cpu = 10` and `max_memory_mb = 5` under `memZeroConfig`. -/
def c6Result : SandboxResult :=
  { success := true, stdout := "ok", stderr := "", latency_ms := 1 }

/-- The two events that run publishes for the `c6Result` execution. -/
def c6Events : List SandboxExecutionEvent :=
  [{ event_type := "sandbox.exec", agent_id := "agent-a"
     sandbox_strategy := "restricted", phase := "start", command := some "cmd"
     success := none, latency_ms := none },
   { event_type := "sandbox.exec", agent_id := "agent-a"
     sandbox_strategy := "restricted", phase := "finish", command := some "cmd"
     success := some true, latency_ms := some 1 }]

/-- A manager with one registered pool name and one already-registered agent
(whose authorization set should be overwritten on re-registration). -/
def sampleManager : SharedDependencyManager :=
  { pools := [("filesystem", DependencyPool.init "filesystem" 2)]
    agent_dependencies := [("agent-a", ["filesystem", "old"])] }

/-! ## Association-list lemmas -/

theorem alistInsert_length_le {α β : Type} [DecidableEq α]
    (l : List (α × β)) (k : α) (v : β) :
    (alistInsert l k v).length ≤ l.length + 1 := by
  induction l with
  | nil => simp [alistInsert]
  | cons e rest ih =>
      obtain ⟨k', v'⟩ := e
      by_cases h : k' = k
      · simp [alistInsert, h]
      · simp [alistInsert, h]
        omega

theorem alistErase_length_le {α β : Type} [DecidableEq α]
    (l : List (α × β)) (k : α) :
    (alistErase l k).length ≤ l.length := by
  induction l with
  | nil => simp [alistErase]
  | cons e rest ih =>
      obtain ⟨k', v'⟩ := e
      by_cases hk : k' = k <;> simp [alistErase, hk] <;> omega

theorem alistErase_length_lt {α β : Type} [DecidableEq α]
    (l : List (α × β)) (k : α) (v : β) (h : alistLookup l k = some v) :
    (alistErase l k).length + 1 ≤ l.length := by
  induction l with
  | nil => simp [alistLookup] at h
  | cons e rest ih =>
      obtain ⟨k', v'⟩ := e
      by_cases hk : k' = k
      · have := alistErase_length_le rest k
        simp [alistErase, hk]
        omega
      · simp only [alistLookup, if_neg hk] at h
        have := ih h
        simp [alistErase, hk]
        omega

theorem alistLookup_erase_self {α β : Type} [DecidableEq α]
    (l : List (α × β)) (k : α) :
    alistLookup (alistErase l k) k = none := by
  induction l with
  | nil => rfl
  | cons e rest ih =>
      obtain ⟨k', v'⟩ := e
      by_cases hk : k' = k
      · simpa [alistErase, hk] using ih
      · simpa [alistErase, hk, alistLookup] using ih

theorem alistLookup_insert_ne {α β : Type} [DecidableEq α]
    (l : List (α × β)) (k k' : α) (v : β) (h : k ≠ k') :
    alistLookup (alistInsert l k v) k' = alistLookup l k' := by
  induction l with
  | nil => simp [alistInsert, alistLookup, h]
  | cons e rest ih =>
      obtain ⟨k'', v''⟩ := e
      by_cases hk : k'' = k
      · subst hk
        simp [alistInsert, alistLookup, h]
      · simp [alistInsert, alistLookup, hk, ih]

/-! ## The pool capacity invariant (C2, C3)

The quantity `|in_use| + |available|` counts the handles the pool currently
holds in its two containers.  `acquire` only calls `create_instance` when
`len(self._in_use) < self.max_instances`, and every other move either shuffles
a handle between the two containers or drops one, so the sum never exceeds
`max_instances` on any run from a freshly constructed pool. -/

theorem acquireAfterIdle_sumInv (p : DependencyPool) (validate : Nat → Bool)
    (agent_id : String) (now : Nat) (h1 : sumInv p)
    (h2 : p.available = [] ∨
      p.in_use.length + p.available.length < p.max_instances) :
    sumInv (p.acquireAfterIdle validate agent_id now).2 ∧
      (p.acquireAfterIdle validate agent_id now).2.max_instances =
        p.max_instances := by
  unfold sumInv at *
  unfold DependencyPool.acquireAfterIdle
  have hins := alistInsert_length_le p.in_use agent_id p.next_id
  by_cases hcap : p.in_use.length < p.max_instances
  · simp only [hcap, if_true]
    refine ⟨?_, trivial⟩
    rcases h2 with h2 | h2
    · simp [h2]
      omega
    · omega
  · simp only [hcap, if_false]
    cases hav : p.available with
    | nil => exact ⟨h1, rfl⟩
    | cons inst rest =>
        have hins' := alistInsert_length_le p.in_use agent_id inst
        rw [hav] at h1 h2
        simp only [List.length_cons] at h1 h2
        rcases h2 with h2 | h2
        · exact (List.cons_ne_nil _ _ h2).elim
        · by_cases hv : validate inst
          · simp only [hv, if_true]
            cases href : alistLookup p.instance_refs inst with
            | some ref => refine ⟨?_, rfl⟩ ; simp ; omega
            | none => refine ⟨?_, rfl⟩ ; simp ; omega
          · simp only [hv, if_false]
            cases href : alistLookup p.instance_refs inst with
            | none => refine ⟨?_, rfl⟩ ; simp ; omega
            | some ref =>
                cases htime : alistLookup p.creation_times inst with
                | none => refine ⟨?_, rfl⟩ ; simp ; omega
                | some t => refine ⟨?_, rfl⟩ ; simp ; omega

theorem acquire_sumInv (p : DependencyPool) (validate : Nat → Bool)
    (agent_id : String) (now : Nat) (h1 : sumInv p) :
    sumInv (p.acquire validate agent_id now).2 ∧
      (p.acquire validate agent_id now).2.max_instances = p.max_instances := by
  unfold DependencyPool.acquire
  cases hav : p.available with
  | nil => exact acquireAfterIdle_sumInv p validate agent_id now h1 (Or.inl hav)
  | cons inst rest =>
      have hsum : p.in_use.length + (rest.length + 1) ≤ p.max_instances := by
        unfold sumInv at h1
        rw [hav] at h1
        simpa using h1
      have hins := alistInsert_length_le p.in_use agent_id inst
      by_cases hv : validate inst
      · simp only [hv, if_true]
        cases href : alistLookup p.instance_refs inst with
        | some ref => refine ⟨?_, by trivial⟩ ; unfold sumInv ; simp ; omega
        | none => refine ⟨?_, by trivial⟩ ; unfold sumInv ; simp ; omega
      · simp only [hv, if_false]
        cases href : alistLookup p.instance_refs inst with
        | none => refine ⟨?_, by trivial⟩ ; unfold sumInv ; simp ; omega
        | some ref =>
            cases htime : alistLookup p.creation_times inst with
            | none => refine ⟨?_, by trivial⟩ ; unfold sumInv ; simp ; omega
            | some t =>
                apply acquireAfterIdle_sumInv
                · unfold sumInv
                  simp
                  omega
                · right
                  simp
                  omega

theorem release_sumInv (p : DependencyPool) (validate : Nat → Bool)
    (agent_id : String) (h1 : sumInv p) :
    sumInv (p.release validate agent_id).2 ∧
      (p.release validate agent_id).2.max_instances = p.max_instances := by
  unfold DependencyPool.release
  cases hl : alistLookup p.in_use agent_id with
  | none => exact ⟨h1, rfl⟩
  | some inst =>
      have herase := alistErase_length_lt p.in_use agent_id inst hl
      unfold sumInv at *
      by_cases hv : validate inst
      · simp only [hv, if_true]
        refine ⟨?_, by trivial⟩
        simp
        omega
      · simp only [hv, if_false]
        cases href : alistLookup p.instance_refs inst with
        | none => refine ⟨?_, by trivial⟩ ; simp ; omega
        | some ref =>
            cases htime : alistLookup p.creation_times inst with
            | none => refine ⟨?_, by trivial⟩ ; simp ; omega
            | some t => refine ⟨?_, by trivial⟩ ; simp ; omega

theorem cleanupRemove_preserves (l : List Nat) (p : DependencyPool) (c : Nat) :
    (p.cleanupRemove c l).2.in_use = p.in_use ∧
      (p.cleanupRemove c l).2.available = p.available ∧
      (p.cleanupRemove c l).2.max_instances = p.max_instances := by
  induction l generalizing p c with
  | nil => exact ⟨rfl, rfl, rfl⟩
  | cons inst rest ih =>
      unfold DependencyPool.cleanupRemove
      cases hmem : (alistValues p.in_use).contains inst with
      | true =>
          rw [if_pos rfl]
          exact ih p c
      | false =>
          rw [if_neg (by simp)]
          cases href : alistLookup p.instance_refs inst with
          | none => exact ⟨rfl, rfl, rfl⟩
          | some ref =>
              cases htime : alistLookup p.creation_times inst with
              | none => exact ⟨rfl, rfl, rfl⟩
              | some t => exact ih _ (c + 1)

theorem cleanup_sumInv (p : DependencyPool) (now max_age : Nat)
    (h1 : sumInv p) :
    sumInv (p.cleanup_expired now max_age).2 ∧
      (p.cleanup_expired now max_age).2.max_instances = p.max_instances := by
  unfold DependencyPool.cleanup_expired
  obtain ⟨hi, ha, hm⟩ := cleanupRemove_preserves
    ((p.creation_times.filter (fun e => max_age < now - e.2)).map (·.1)) p 0
  unfold sumInv at *
  rw [hi, ha, hm]
  exact ⟨h1, rfl⟩

theorem applyOp_sumInv (p : DependencyPool) (op : PoolOp) (h1 : sumInv p) :
    sumInv (applyOp p op) ∧ (applyOp p op).max_instances = p.max_instances := by
  cases op with
  | acquireOp validate agent_id now => exact acquire_sumInv p validate agent_id now h1
  | releaseOp validate agent_id => exact release_sumInv p validate agent_id h1
  | cleanupOp now max_age => exact cleanup_sumInv p now max_age h1

theorem runOps_sumInv (ops : List PoolOp) (p : DependencyPool) (h1 : sumInv p) :
    sumInv (runOps p ops) ∧ (runOps p ops).max_instances = p.max_instances := by
  induction ops generalizing p with
  | nil => exact ⟨h1, rfl⟩
  | cons op rest ih =>
      unfold runOps at *
      obtain ⟨h2, h3⟩ := applyOp_sumInv p op h1
      obtain ⟨h4, h5⟩ := ih (applyOp p op) h2
      exact ⟨h4, h5.trans h3⟩

/-! ## Claims about the dependency pool -/

/-- C1: after one acquire/release round-trip, handle `0` sits in the idle
queue with live metadata.  `cleanup_expired(3600)` at `t = 7200` then destroys
it (return count `1`) and drops its metadata — but the handle is **still in
the idle queue**, because the source never removes destroyed instances from
`_available`; the next acquire pops the dead handle and raises `KeyError` on
its missing metadata.  This refutes the claimed invariant that an instance is
never in "neither" container while alive, resp. that a destroyed instance
leaves the queue: here the queue retains a handle whose metadata is gone. -/
theorem c1_cleanup_leaves_destroyed_handle_in_idle_queue :
    c1Pool.available = [0] ∧
      alistLookup c1Pool.instance_refs 0 ≠ none ∧
      (c1Pool.cleanup_expired 7200 3600).1 = (.ok, 1) ∧
      (c1Pool.cleanup_expired 7200 3600).2.available = [0] ∧
      alistLookup (c1Pool.cleanup_expired 7200 3600).2.instance_refs 0 = none ∧
      ((c1Pool.cleanup_expired 7200 3600).2.acquire (fun _ => true) "agent-b"
          8000).1 = .keyError := by
  decide

/-- C2: along every sequence of pool operations from a freshly constructed
pool, the in-use map never holds more than `max_instances` entries. -/
theorem c2_in_use_bounded (dependency_type : String) (max_instances : Nat)
    (ops : List PoolOp) :
    (runOps (DependencyPool.init dependency_type max_instances)
        ops).in_use.length ≤ max_instances := by
  have h0 : sumInv (DependencyPool.init dependency_type max_instances) := by
    simp [sumInv, DependencyPool.init]
  obtain ⟨h1, h2⟩ :=
    runOps_sumInv ops (DependencyPool.init dependency_type max_instances) h0
  unfold sumInv at h1
  rw [h2] at h1
  have h3 : (DependencyPool.init dependency_type max_instances).max_instances =
      max_instances := rfl
  rw [h3] at h1
  omega

/-- C3: `acquire` holds the pool lock for its whole body, so its wait step is
modelled atomically; from any reachable pool state that is full
(`max_instances ≤ |in_use|`) the idle queue is provably empty, hence the wait
step cannot be satisfied (no concurrent `release` can run under the held
lock) and `acquire` raises `TimeoutError`, leaving the state unchanged. -/
theorem c3_acquire_on_full_pool_times_out (dependency_type : String)
    (max_instances : Nat) (ops : List PoolOp) (validate : Nat → Bool)
    (agent_id : String) (now : Nat)
    (hfull : max_instances ≤
      (runOps (DependencyPool.init dependency_type max_instances)
        ops).in_use.length) :
    (runOps (DependencyPool.init dependency_type max_instances)
        ops).available = [] ∧
      (runOps (DependencyPool.init dependency_type max_instances) ops).acquire
          validate agent_id now =
        (.timedOut,
          runOps (DependencyPool.init dependency_type max_instances) ops) := by
  have h0 : sumInv (DependencyPool.init dependency_type max_instances) := by
    simp [sumInv, DependencyPool.init]
  obtain ⟨h1, h2⟩ :=
    runOps_sumInv ops (DependencyPool.init dependency_type max_instances) h0
  unfold sumInv at h1
  have h3 : (DependencyPool.init dependency_type max_instances).max_instances =
      max_instances := rfl
  rw [h3] at h2
  rw [h2] at h1
  have hav :
      (runOps (DependencyPool.init dependency_type max_instances)
        ops).available = [] := by
    cases hq : (runOps (DependencyPool.init dependency_type max_instances)
        ops).available with
    | nil => rfl
    | cons a rest =>
        rw [hq] at h1
        simp only [List.length_cons] at h1
        omega
  refine ⟨hav, ?_⟩
  unfold DependencyPool.acquire
  rw [hav]
  unfold DependencyPool.acquireAfterIdle
  rw [if_neg (by rw [h2] ; omega), hav]

/-- C3 witness: a pool of capacity 1 filled by one acquire; a second agent's
acquire times out with the state unchanged. -/
theorem c3_acquire_on_full_pool_times_out_witness :
    1 ≤ (runOps (DependencyPool.init "cursor" 1)
          [PoolOp.acquireOp (fun _ => true) "agent-a" 0]).in_use.length ∧
      ((runOps (DependencyPool.init "cursor" 1)
          [PoolOp.acquireOp (fun _ => true) "agent-a" 0]).available = [] ∧
        (runOps (DependencyPool.init "cursor" 1)
              [PoolOp.acquireOp (fun _ => true) "agent-a" 0]).acquire
            (fun _ => true) "agent-b" 5 =
          (.timedOut,
            runOps (DependencyPool.init "cursor" 1)
              [PoolOp.acquireOp (fun _ => true) "agent-a" 0])) :=
  ⟨by decide,
    c3_acquire_on_full_pool_times_out "cursor" 1
      [PoolOp.acquireOp (fun _ => true) "agent-a" 0] (fun _ => true) "agent-b"
      5 (by decide)⟩

/-- C4 counterexample: `c4Pool`'s idle queue is `[0, 1]` where `0` fails
validation and `1` passes, and there is spare capacity.  The claim says
`acquire` retries the idle queue and returns idle instance `1`; the code
instead destroys `0` and falls through to creation, returning the freshly
created handle `2`, which was never in the idle queue. -/
theorem c4_invalid_pop_creates_instead_of_retrying :
    c4Validate 1 = true ∧ 1 ∈ c4Pool.available ∧
      c4Pool.in_use.length < c4Pool.max_instances ∧
      (c4Pool.acquire c4Validate "agent-a" 10).1 = .acquired 2 ∧
      2 ∉ c4Pool.available := by
  decide

/-- C4 (amended): when the instance popped from the idle queue fails
`validate_instance`, it is destroyed and its metadata dropped, but `acquire`
does **not** retry the idle queue: it proceeds to the creation check, and with
spare capacity it returns a freshly created instance (`next_id`). -/
theorem c4_invalid_pop_falls_through_to_creation (p : DependencyPool)
    (validate : Nat → Bool) (agent_id : String) (now : Nat) (inst : Nat)
    (rest : List Nat) (ref : DependencyInstance) (t : Nat)
    (hq : p.available = inst :: rest) (hv : validate inst = false)
    (href : alistLookup p.instance_refs inst = some ref)
    (ht : alistLookup p.creation_times inst = some t)
    (hcap : p.in_use.length < p.max_instances) (hfresh : p.next_id ≠ inst) :
    (p.acquire validate agent_id now).1 = .acquired p.next_id ∧
      (p.acquire validate agent_id now).2.available = rest ∧
      alistLookup (p.acquire validate agent_id now).2.instance_refs inst =
        none := by
  unfold DependencyPool.acquire
  rw [hq]
  simp only [hv, href, ht, Bool.false_eq_true, if_false]
  unfold DependencyPool.acquireAfterIdle
  rw [if_pos hcap]
  refine ⟨rfl, rfl, ?_⟩
  simp [alistLookup_insert_ne, alistLookup_erase_self, hfresh]

/-- C4 witness: the amended behaviour at `c4Pool`. -/
theorem c4_invalid_pop_falls_through_to_creation_witness :
    c4Pool.available = 0 :: [1] ∧ c4Validate 0 = false ∧
      ((c4Pool.acquire c4Validate "agent-a" 10).1 = .acquired c4Pool.next_id ∧
        (c4Pool.acquire c4Validate "agent-a" 10).2.available = [1] ∧
        alistLookup (c4Pool.acquire c4Validate "agent-a" 10).2.instance_refs 0 =
          none) :=
  ⟨by decide, by decide,
    c4_invalid_pop_falls_through_to_creation c4Pool c4Validate "agent-a" 10 0
      [1] { agent_id := "agent-x", acquired_at := 0, last_used := 0
            use_count := 0 }
      0 (by decide) (by decide) (by decide) (by decide) (by decide)
      (by decide)⟩

/-- C9: releasing for an agent that holds no instance is a silent no-op, and
after any `release` the same agent's immediate second `release` returns
without error and leaves the pool state identical. -/
theorem c9_release_noop_and_idempotent (p : DependencyPool)
    (validate validate' : Nat → Bool) (agent_id : String) :
    (alistLookup p.in_use agent_id = none →
      p.release validate agent_id = (.ok, p)) ∧
      (p.release validate agent_id).2.release validate' agent_id =
        (.ok, (p.release validate agent_id).2) := by
  constructor
  · intro h
    unfold DependencyPool.release
    rw [h]
  · have key : ∀ q : DependencyPool, alistLookup q.in_use agent_id = none →
        q.release validate' agent_id = (.ok, q) := by
      intro q h
      unfold DependencyPool.release
      rw [h]
    apply key
    unfold DependencyPool.release
    cases hl : alistLookup p.in_use agent_id with
    | none => exact hl
    | some inst =>
        by_cases hv : validate inst
        · simp only [hv, if_true]
          exact alistLookup_erase_self p.in_use agent_id
        · simp only [hv, if_false]
          cases href : alistLookup p.instance_refs inst with
          | none => exact alistLookup_erase_self p.in_use agent_id
          | some ref =>
              cases htime : alistLookup p.creation_times inst with
              | none => exact alistLookup_erase_self p.in_use agent_id
              | some t => exact alistLookup_erase_self p.in_use agent_id

/-- C9 witness: a fresh pool holds nothing for `"agent-a"`, so its release is
a silent no-op. -/
theorem c9_release_noop_and_idempotent_witness :
    alistLookup (DependencyPool.init "filesystem" 3).in_use "agent-a" = none ∧
      (DependencyPool.init "filesystem" 3).release (fun _ => true) "agent-a" =
        (.ok, DependencyPool.init "filesystem" 3) :=
  ⟨by decide,
    (c9_release_noop_and_idempotent (DependencyPool.init "filesystem" 3)
        (fun _ => true) (fun _ => true) "agent-a").1 (by decide)⟩

/-! ## Claims about the dependency manager -/

/-- C7: `register_agent` validates every requested dependency name against the
registered pools before its single mutation: with all names known it replaces
the agent's authorization set wholesale (overwriting any previous set), and
with any unknown name it raises `ValueError` before mutating anything. -/
theorem c7_register_agent_all_or_nothing (m : SharedDependencyManager)
    (agent_id : String) (dependency_types : List String) :
    if dependency_types.all (fun d => (alistLookup m.pools d).isSome) then
      m.register_agent agent_id dependency_types =
        .ok { m with
                agent_dependencies :=
                  alistInsert m.agent_dependencies agent_id
                    dependency_types.dedup }
    else ∃ msg, m.register_agent agent_id dependency_types = .error msg := by
  unfold SharedDependencyManager.register_agent
  cases hfind :
      dependency_types.find? (fun d => (alistLookup m.pools d).isNone) with
  | none =>
      rw [if_pos ?hall]
      case hall =>
        rw [List.all_eq_true]
        intro d hd
        have hnone := List.find?_eq_none.mp hfind d hd
        simp only [Bool.not_eq_true, Option.isNone_eq_false_iff] at hnone
        exact hnone
  | some d =>
      rw [if_neg ?hsome]
      case hsome =>
        intro hall
        rw [List.all_eq_true] at hall
        have h1 := List.find?_some hfind
        have h2 := List.mem_of_find?_eq_some hfind
        have h3 := hall d h2
        rw [Option.isNone_iff_eq_none] at h1
        rw [h1] at h3
        simp at h3
      exact ⟨_, rfl⟩

/-- C7 witness: re-registering `"agent-a"` with the known name
`["filesystem"]` overwrites its previous authorization set. -/
theorem c7_register_agent_all_or_nothing_witness :
    if ["filesystem"].all (fun d => (alistLookup sampleManager.pools d).isSome)
    then
      sampleManager.register_agent "agent-a" ["filesystem"] =
        .ok { sampleManager with
                agent_dependencies :=
                  alistInsert sampleManager.agent_dependencies "agent-a"
                    ["filesystem"].dedup }
    else
      ∃ msg, sampleManager.register_agent "agent-a" ["filesystem"] =
        .error msg :=
  c7_register_agent_all_or_nothing sampleManager "agent-a" ["filesystem"]

/-! ## Claims about the event bus -/

theorem takeLastN_of_le {α : Type} (n : Nat) (l : List α) (h : l.length ≤ n) :
    takeLastN n l = l := by
  unfold takeLastN
  have h0 : l.length - n = 0 := by omega
  rw [h0, List.drop_zero]

theorem takeLastN_cons_of_le {α : Type} (n : Nat) (a : α) (l : List α)
    (h : n ≤ l.length) :
    takeLastN n (a :: l) = takeLastN n l := by
  unfold takeLastN
  have h0 : (a :: l).length - n = (l.length - n) + 1 := by
    simp only [List.length_cons]
    omega
  rw [h0, List.drop_succ_cons]

theorem publishAll_some {E : Type} (events : List E) (b : EventBus E)
    (hcap : 0 < b.buffer_size) (hlen : b.buffer.length ≤ b.buffer_size) :
    ∃ b', b.publishAll events = some b' ∧ b'.buffer_size = b.buffer_size ∧
      b'.buffer = takeLastN b.buffer_size (b.buffer ++ events) := by
  induction events generalizing b with
  | nil =>
      refine ⟨b, rfl, rfl, ?_⟩
      rw [List.append_nil, takeLastN_of_le _ _ hlen]
  | cons e es ih =>
      unfold EventBus.publishAll EventBus.publish
      by_cases h : b.buffer_size ≤ b.buffer.length
      · have hlen' : b.buffer.length = b.buffer_size := le_antisymm hlen h
        rw [if_pos h]
        cases hbuf : b.buffer with
        | nil =>
            rw [hbuf] at hlen'
            simp only [List.length_nil] at hlen'
            omega
        | cons hd tl =>
            obtain ⟨b', h1, h2, h3⟩ := ih { b with buffer := tl ++ [e] }
              hcap
              (by
                simp only [List.length_append, List.length_singleton]
                rw [hbuf] at hlen'
                simp only [List.length_cons] at hlen'
                omega)
            refine ⟨b', h1, h2, ?_⟩
            rw [h3]
            show takeLastN b.buffer_size ((tl ++ [e]) ++ es) =
              takeLastN b.buffer_size ((hd :: tl) ++ e :: es)
            rw [List.append_assoc, List.singleton_append, List.cons_append,
              takeLastN_cons_of_le]
            rw [hbuf] at hlen'
            simp only [List.length_cons] at hlen'
            simp only [List.length_append, List.length_cons]
            omega
      · rw [if_neg h]
        obtain ⟨b', h1, h2, h3⟩ := ih { b with buffer := b.buffer ++ [e] }
          hcap
          (by
            simp only [List.length_append, List.length_singleton]
            omega)
        refine ⟨b', h1, h2, ?_⟩
        rw [h3]
        show takeLastN b.buffer_size ((b.buffer ++ [e]) ++ es) =
          takeLastN b.buffer_size (b.buffer ++ e :: es)
        rw [List.append_assoc, List.singleton_append]

/-- C8 counterexample: an event bus constructed with capacity `0` cannot
accept even one event — `publish` hits `self._buffer.pop(0)` on an empty
buffer and raises `IndexError` (modelled `none`), so no sequence of
`N > buffer_size` publishes can complete, let alone leave events
retrievable. -/
theorem c8_capacity_zero_publish_raises :
    (EventBus.init Nat 0).publishAll [1] = none ∧ 0 < [1].length :=
  ⟨rfl, by decide⟩

/-- C8 (amended): for a bus of capacity `buffer_size ≥ 1`, publishing
`N > buffer_size` events from the fresh bus succeeds and leaves exactly the
most recent `buffer_size` of them, in publication order, retrievable via
`recent(buffer_size)`. -/
theorem c8_bounded_buffer_keeps_most_recent (E : Type) (buffer_size : Nat)
    (events : List E) (hcap : 0 < buffer_size)
    (hlen : buffer_size < events.length) :
    ∃ b', (EventBus.init E buffer_size).publishAll events = some b' ∧
      b'.recent buffer_size = events.drop (events.length - buffer_size) ∧
      (b'.recent buffer_size).length = buffer_size := by
  obtain ⟨b', h1, h2, h3⟩ := publishAll_some events (EventBus.init E buffer_size)
    hcap (by simp [EventBus.init])
  have hbuf : b'.buffer = takeLastN buffer_size events := by
    rw [h3]
    rfl
  have hblen : b'.buffer.length = buffer_size := by
    rw [hbuf]
    unfold takeLastN
    rw [List.length_drop]
    omega
  have hrec : b'.recent buffer_size =
      events.drop (events.length - buffer_size) := by
    unfold EventBus.recent pyTailSlice
    rw [if_neg (by omega), hblen, Nat.sub_self, List.drop_zero, hbuf]
    rfl
  exact ⟨b', h1, hrec, by rw [hrec, List.length_drop] ; omega⟩

/-- C8 witness: capacity 2, three events published; the last two are
retrievable in order. -/
theorem c8_bounded_buffer_keeps_most_recent_witness :
    0 < 2 ∧ 2 < [10, 20, 30].length ∧
      (∃ b', (EventBus.init Nat 2).publishAll [10, 20, 30] = some b' ∧
        b'.recent 2 = [10, 20, 30].drop ([10, 20, 30].length - 2) ∧
        (b'.recent 2).length = 2) :=
  ⟨by decide, by decide,
    c8_bounded_buffer_keeps_most_recent Nat 2 [10, 20, 30] (by decide)
      (by decide)⟩

/-- C10: `recent(0)` slices `self._buffer[-0:] = self._buffer[0:]` and so
returns the entire buffered list (same length as the buffer), not the empty
list. -/
theorem c10_recent_zero_returns_whole_buffer (E : Type) (b : EventBus E) :
    b.recent 0 = b.buffer ∧ (b.recent 0).length = b.buffer.length := by
  constructor
  · simp [EventBus.recent, pyTailSlice]
  · simp [EventBus.recent, pyTailSlice]

/-! ## Claims about the sandbox manager -/

/-- C5: for a session minted by `create_session`, `run` always returns a
result (the strategy lookup cannot fail, and the execution block is wrapped in
`try/except Exception`); an exception while spawning or monitoring becomes a
`success=False` result carrying the exception text in `stderr`, and a
`finish` event marked failed is still published. -/
theorem c5_run_never_raises (strategies : List (String × SandboxStrategyConfig))
    (agent_id strategy : String) (now : Rat) (session : SandboxSession)
    (command : String)
    (hs : SandboxManager.create_session strategies agent_id strategy now =
      some session) :
    (∀ outcome,
      (SandboxManager.run strategies session command outcome).isSome) ∧
      (∀ msg latency_ms result events,
        SandboxManager.run strategies session command
            (.raised msg latency_ms) = some (result, events) →
        result.success = false ∧
          result.stderr = "Execution failed: " ++ msg ∧
          ∃ e ∈ events, e.phase = "finish" ∧ e.success = some false) := by
  obtain ⟨cfg, hcfg⟩ :
      ∃ cfg, alistLookup strategies session.strategy = some cfg := by
    unfold SandboxManager.create_session at hs
    by_cases hlook : (alistLookup strategies strategy).isSome
    · obtain ⟨cfg, hcfg⟩ := Option.isSome_iff_exists.mp hlook
      rw [if_pos hlook] at hs
      injection hs with hs
      rw [← hs]
      exact ⟨cfg, hcfg⟩
    · rw [if_neg hlook] at hs
      exact absurd hs (by simp)
  constructor
  · intro outcome
    unfold SandboxManager.run
    rw [hcfg]
    cases outcome <;> rfl
  · intro msg latency_ms result events hrun
    unfold SandboxManager.run at hrun
    rw [hcfg] at hrun
    injection hrun with hrun
    obtain ⟨h1, h2⟩ := Prod.mk.inj hrun
    refine ⟨?_, ?_, ?_⟩
    · rw [← h1]
    · rw [← h1]
    · rw [← h2]
      refine ⟨{ event_type := "sandbox.exec", agent_id := session.agent_id
                sandbox_strategy := session.strategy, phase := "finish"
                command := some command, success := some false
                latency_ms := some latency_ms }, ?_, rfl, rfl⟩
      simp

/-- C5 witness: a concrete session over `memZeroStrategies`; the raised-case
conclusion is available for every message. -/
theorem c5_run_never_raises_witness :
    SandboxManager.create_session memZeroStrategies "agent-a" "restricted" 0 =
      some memZeroSession ∧
      ((∀ outcome,
          (SandboxManager.run memZeroStrategies memZeroSession "echo hi"
            outcome).isSome) ∧
        (∀ msg latency_ms result events,
          SandboxManager.run memZeroStrategies memZeroSession "echo hi"
              (.raised msg latency_ms) = some (result, events) →
          result.success = false ∧
            result.stderr = "Execution failed: " ++ msg ∧
            ∃ e ∈ events, e.phase = "finish" ∧ e.success = some false)) :=
  ⟨rfl,
    c5_run_never_raises memZeroStrategies "agent-a" "restricted" 0
      memZeroSession "echo hi" rfl⟩

/-- C6 counterexample: with `memory_limit_mb = 0` configured (a legal
`Optional[int]` value), exit code `0`, `max_cpu = 10 ≤ 90` and
`max_memory_mb = 5`, the claim's formula gives `success = false` (a memory
limit is configured and `5 ≤ 0` fails), but the code's
`memory_limit_mb and max_memory_mb > memory_limit_mb` treats the falsy limit
`0` as "no limit", so the run is reported `success = true`. -/
theorem c6_memory_limit_zero_diverges :
    (SandboxManager.run memZeroStrategies memZeroSession "cmd"
        (.completed "ok" "" (some 0) 10 5 1)).map (fun r => r.1.success) =
      some true ∧
      specSuccessFormula 0 10 90 5 (some 0) = false := by
  constructor
  · rfl
  · rfl

/-- Bool identity used to reshape the success computation. -/
theorem bool_success_reshape (a c1 c2 y : Bool) :
    (a && !(!c1 || (y && !c2))) = (a && c1 && (!y || c2)) := by
  cases a <;> cases c1 <;> cases c2 <;> cases y <;> rfl

/-- C6 (amended): for every completed run, `success` is true iff the exit
code is `0`, `max_cpu ≤ hard_cpu_limit_pct`, and the configured memory limit
is falsy (`None` **or `0`**) or `max_memory_mb` is within it — equivalently
`success = (exit_code == 0) && !resource_exceeded` exactly as the code
computes it.  The claim's formula reads a configured limit of `0` as a real
limit; the code does not. -/
theorem c6_success_formula (strategies : List (String × SandboxStrategyConfig))
    (session : SandboxSession) (command stdout stderr : String)
    (returncode : Option Int) (max_cpu max_memory_mb latency_ms : Rat)
    (strategy_config : SandboxStrategyConfig)
    (hs : alistLookup strategies session.strategy = some strategy_config)
    (result : SandboxResult) (events : List SandboxExecutionEvent)
    (hr : SandboxManager.run strategies session command
        (.completed stdout stderr returncode max_cpu max_memory_mb
          latency_ms) = some (result, events)) :
    result.success =
      ((match returncode with | some c => c | none => -1 : Int) == 0 &&
        decide (max_cpu ≤ (strategy_config.hard_cpu_limit_pct : Rat)) &&
        (!pyTruthyOptInt strategy_config.memory_limit_mb ||
          decide (max_memory_mb ≤
            ((strategy_config.memory_limit_mb.getD 0 : Int) : Rat)))) := by
  unfold SandboxManager.run at hr
  simp only [hs] at hr
  injection hr with hr
  obtain ⟨h1, h2⟩ := Prod.mk.inj hr
  subst h1
  have hc1 : decide ((strategy_config.hard_cpu_limit_pct : Rat) < max_cpu) =
      !decide (max_cpu ≤ (strategy_config.hard_cpu_limit_pct : Rat)) := by
    rw [← decide_not]
    exact decide_eq_decide.mpr not_le.symm
  have hc2 : decide (((strategy_config.memory_limit_mb.getD 0 : Int) : Rat) <
        max_memory_mb) =
      !decide (max_memory_mb ≤
        ((strategy_config.memory_limit_mb.getD 0 : Int) : Rat)) := by
    rw [← decide_not]
    exact decide_eq_decide.mpr not_le.symm
  cases returncode with
  | none =>
      simp only [hc1, hc2]
      exact bool_success_reshape _ _ _ _
  | some c =>
      simp only [hc1, hc2]
      exact bool_success_reshape _ _ _ _

/-- C6 witness: the amended formula evaluated at the `memZeroConfig` run. -/
theorem c6_success_formula_witness :
    c6Result.success =
      ((match (some 0 : Option Int) with | some c => c | none => -1 : Int) == 0 &&
        decide ((10 : Rat) ≤ (memZeroConfig.hard_cpu_limit_pct : Rat)) &&
        (!pyTruthyOptInt memZeroConfig.memory_limit_mb ||
          decide ((5 : Rat) ≤
            ((memZeroConfig.memory_limit_mb.getD 0 : Int) : Rat)))) :=
  c6_success_formula memZeroStrategies memZeroSession "cmd" "ok" "" (some 0)
    10 5 1 memZeroConfig rfl c6Result c6Events (by decide)

end AgentToolkit
